import Mathlib

set_option linter.unusedVariables false

/-! Verification development for the rick_ai repository.

The claims concern three parts of the backend:
  * the SQL validation pipeline of `backend/utils/sqlValidator.js` with the
    policy lists of `backend/config/rickConfig.js`;
  * the freeform data path of `handleChat` in
    `backend/controllers/rickController.js`;
  * the memory service of `backend/services/memoryService.js` with the
    name-extraction heuristic of `backend/utils/contextBuilder.js`.

JavaScript strings are modelled as `List Char`.  The repository only feeds
ASCII SQL and chat text through these functions, so `toUpperCase`,
`toLowerCase`, the regex classes `\s` and `\w` and `trim` are modelled on
their ASCII fragment (`Char.toUpper`/`Char.toLower` agree with JavaScript
there).  The MySQL store behind the memory service is modelled as an
explicit list of rows, and each fixed query text of the source as the
corresponding filter/sort/limit on those rows; a throwing backing store is
modelled as the `Except.error` case of the store argument. -/

/-- The characters of a string literal; used to transcribe the JavaScript
string constants of the source. -/
def chars (s : String) : List Char := s.data

/-- A JavaScript string value. -/
abbrev Str := List Char

/-- JavaScript regex class `\s`, ASCII fragment: space, tab, line feed,
vertical tab, form feed, carriage return. -/
def isWsChar (c : Char) : Bool :=
  c == ' ' || c == '\t' || c == '\n' || c == Char.ofNat 11 || c == Char.ofNat 12 || c == '\r'

/-- JavaScript regex class `\w`: ASCII letters, digits and underscore. -/
def isWordChar (c : Char) : Bool :=
  ('a' ≤ c && c ≤ 'z') || ('A' ≤ c && c ≤ 'Z') || ('0' ≤ c && c ≤ '9') || c == '_'

/-- `String.prototype.toUpperCase`, ASCII fragment. -/
def upperStr (s : Str) : Str := s.map Char.toUpper

/-- `String.prototype.toLowerCase`, ASCII fragment. -/
def lowerStr (s : Str) : Str := s.map Char.toLower

/-- `String.prototype.trim`: whitespace stripped from both ends. -/
def trimStr (s : Str) : Str :=
  ((s.dropWhile isWsChar).reverse.dropWhile isWsChar).reverse

/-- `String.prototype.startsWith`. -/
def startsWithStr (s pat : Str) : Bool := pat.isPrefixOf s

/-- Does `pat` match at the head of `s`, comparing characters through `norm`
(`id` for an exact search, `Char.toLower` for the case-insensitive search a
regex `i` flag performs)? -/
def matchesAt (norm : Char → Char) : Str → Str → Bool
  | [], _ => true
  | _ :: _, [] => false
  | p :: ps, c :: cs => (norm c == norm p) && matchesAt norm ps cs

/-- The leftmost occurrence of `pat` in `s` under `norm`:
`some (pre, m, post)` with `s = pre ++ m ++ post` and `m` the matched
characters, as a JavaScript regex search without flags finds it. -/
def findSub (norm : Char → Char) (pat : Str) : Str → Option (Str × Str × Str)
  | [] => if matchesAt norm pat [] then some ([], [], []) else none
  | c :: r =>
    if matchesAt norm pat (c :: r) then
      some ([], (c :: r).take pat.length, (c :: r).drop pat.length)
    else
      (findSub norm pat r).map (fun x => (c :: x.1, x.2.1, x.2.2))

/-- `String.prototype.includes` under a character normalisation. -/
def containsSub (norm : Char → Char) (pat s : Str) : Bool := (findSub norm pat s).isSome

/-- One attempt of the regex `<kw>\s+(\w+)` (with the `i` flag) at the head of
`s`: `some (tok, post)` when it matches there, `tok` the captured word and
`post` the text after the match.  The source instantiates `kw` with `FROM`
(`tablePattern` and the injector's rewrite); the spec's reading adds `JOIN`.
The remainder after the greedy `\w+` is written `dropWhile isWordChar`, which
equals dropping `tok.length` characters. -/
def parseKwAt (kw : Str) (s : Str) : Option (Str × Str) :=
  if matchesAt Char.toLower kw s then
    if ((s.drop kw.length).takeWhile isWsChar).isEmpty then none
    else
      if (((s.drop kw.length).dropWhile isWsChar).takeWhile isWordChar).isEmpty then none
      else
        some (((s.drop kw.length).dropWhile isWsChar).takeWhile isWordChar,
              ((s.drop kw.length).dropWhile isWsChar).dropWhile isWordChar)
  else none

/-- The leftmost full match of the regex `<kw>\s+(\w+)` (flag `i`) in `s`:
`some (pre, tok, post)` with `pre` the text before the match, `tok` the
captured table name and `post` the text after the match.  This is the search
`String.prototype.replace` performs for the injector's rewrite. -/
def findKwTable (kw : Str) : Str → Option (Str × Str × Str)
  | [] => none
  | c :: r =>
    match parseKwAt kw (c :: r) with
    | some (tok, post) => some ([], tok, post)
    | none => (findKwTable kw r).map (fun x => (c :: x.1, x.2.1, x.2.2))

/-- Scanner for all matches of the regex `<kw>\s+(\w+)` (flags `gi`):
left-to-right, resuming after each match, each captured word lowercased.
The first argument is fuel; with fuel at least the text's length the scan
runs to the end of the text, and by `parseKwAt_some_length` every step
hands a strictly shorter text to strictly smaller fuel, so the fuel never
runs out before the text does. -/
def extractTablesAux (kw : Str) : Nat → Str → List Str
  | 0, _ => []
  | _ + 1, [] => []
  | fuel + 1, c :: r =>
    match parseKwAt kw (c :: r) with
    | some (tok, post) => lowerStr tok :: extractTablesAux kw fuel post
    | none => extractTablesAux kw fuel r

/-- All matches of the regex `<kw>\s+(\w+)` (flags `gi`), each captured word
lowercased — the `[...sql.matchAll(tablePattern)].map(m => m[1].toLowerCase())`
of `validateSQL`. -/
def extractTables (kw : Str) (s : Str) : List Str := extractTablesAux kw s.length s

/-- Modelled from the spec: the spec's check 4 reads "Extract every table
name following a `FROM` or `JOIN` keyword (case-insensitive) via lexical
scan".  This scanner follows those words (same fuel scheme as
`extractTablesAux`), for comparison with the source's
`extractTables (chars "from")`, which scans for `FROM` only. -/
def specExtractTablesAux : Nat → Str → List Str
  | 0, _ => []
  | _ + 1, [] => []
  | fuel + 1, c :: r =>
    match parseKwAt (chars "from") (c :: r) with
    | some (tok, post) => lowerStr tok :: specExtractTablesAux fuel post
    | none =>
      match parseKwAt (chars "join") (c :: r) with
      | some (tok, post) => lowerStr tok :: specExtractTablesAux fuel post
      | none => specExtractTablesAux fuel r

/-- Modelled from the spec: every table name following a `FROM` or a `JOIN`
keyword, lowercased, in scan order. -/
def specExtractTables (s : Str) : List Str := specExtractTablesAux s.length s

/-- `sql.split(';')`. -/
def splitSemi : Str → List Str
  | [] => [[]]
  | c :: r =>
    if c = ';' then [] :: splitSemi r
    else
      match splitSemi r with
      | [] => [[c]]
      | h :: t => (c :: h) :: t

/-- Proof helper: append a character to the last piece of a non-empty piece
list; `splitSemi (s ++ [c])` is `snocLast c (splitSemi s)` for `c ≠ ';'`. -/
def snocLast (c : Char) : List Str → List Str
  | [] => [[c]]
  | [h] => [h ++ [c]]
  | h :: t => h :: snocLast c t

/-- The `.filter(s => s.trim())` of `sanitizeSQL`: the `;`-separated pieces
whose trim is non-empty (a JavaScript string is truthy iff non-empty). -/
def nonEmptyStatements (s : Str) : List Str :=
  (splitSemi s).filter (fun x => !(trimStr x).isEmpty)

/-- `allowedTables` of backend/config/rickConfig.js. -/
def allowedTables : List Str :=
  [chars "students", chars "grades", chars "assignments",
   chars "attendance", chars "courses", chars "classes"]

/-- `blockedKeywords` of backend/config/rickConfig.js. -/
def blockedKeywords : List Str :=
  [chars "DROP", chars "DELETE", chars "UPDATE", chars "INSERT",
   chars "ALTER", chars "TRUNCATE", chars "GRANT", chars "REVOKE",
   chars "CREATE", chars "REPLACE", chars "EXEC", chars "EXECUTE"]

/-- The `{ valid, error }` object `validateSQL` returns. -/
structure ValidationResult where
  valid : Bool
  error : Option Str
  deriving DecidableEq, Repr

/-- `validateSQL` of backend/utils/sqlValidator.js.  Checks in order: the
trimmed uppercased text must start with `SELECT`; no blocked keyword may
occur in the uppercased text (`upperSQL.includes(keyword)`, first hit
reported); every `FROM`-extracted table must be allowed (first offender
reported); the lowercased text must contain `teacher_id`.  `teacherId` is
accepted and unused, as in the source. -/
def validateSQL (sql : Str) (teacherId : Nat) : ValidationResult :=
  if !(startsWithStr (trimStr (upperStr sql)) (chars "SELECT")) then
    { valid := false, error := some (chars "Only SELECT queries are allowed") }
  else
    match blockedKeywords.find? (fun kw => containsSub id kw (upperStr sql)) with
    | some kw =>
      { valid := false, error := some (chars "Blocked keyword detected: " ++ kw) }
    | none =>
      match (extractTables (chars "from") sql).find?
          (fun t => !(allowedTables.contains t)) with
      | some table =>
        { valid := false,
          error := some (chars "Table '" ++ table ++ chars "' is not allowed") }
      | none =>
        if !(containsSub id (chars "teacher_id") (lowerStr sql)) then
          { valid := false, error := some (chars "Query must filter by teacher_id") }
        else { valid := true, error := none }

/-- `injectTeacherFilter` of backend/utils/sqlValidator.js.  The source
guards each branch with `lowerSQL.includes('where')` rsp. `…('from')` and
then rewrites with `sql.replace(/where/i, …)` rsp.
`sql.replace(/from\s+(\w+)/i, 'FROM $1 WHERE teacher_id = <id>')`; both the
guard and the rewrite are the same case-insensitive leftmost search, so each
branch is one search here (`replace` leaves the string unchanged when the
`from\s+(\w+)` pattern has no match although `from` occurs, which the final
`none` case covers). -/
def injectTeacherFilter (sql : Str) (teacherId : Nat) : Str :=
  match findSub Char.toLower (chars "where") sql with
  | some (pre, _, post) =>
    pre ++ chars "WHERE teacher_id = " ++ chars (Nat.repr teacherId) ++ chars " AND" ++ post
  | none =>
    match findKwTable (chars "from") sql with
    | some (pre, tok, post) =>
      pre ++ chars "FROM " ++ tok ++ chars " WHERE teacher_id = " ++
        chars (Nat.repr teacherId) ++ post
    | none => sql

/-- `sanitizeSQL` of backend/utils/sqlValidator.js: split on `;`, keep the
pieces with non-empty trim; with more than one such piece return the first
one (silent truncation), else the trimmed input. -/
def sanitizeSQL (sql : Str) : Str :=
  if (nonEmptyStatements sql).length > 1 then (nonEmptyStatements sql).headD []
  else trimStr sql

/-- The `{ success, error, sql }` object `validateAndPrepareSQL` returns. -/
structure PrepareResult where
  success : Bool
  error : Option Str
  sql : Option Str
  deriving DecidableEq, Repr

/-- `validateAndPrepareSQL` of backend/utils/sqlValidator.js: sanitize, then
validate, then inject the teacher filter. -/
def validateAndPrepareSQL (sql : Str) (teacherId : Nat) : PrepareResult :=
  if !(validateSQL (sanitizeSQL sql) teacherId).valid then
    { success := false, error := (validateSQL (sanitizeSQL sql) teacherId).error, sql := none }
  else
    { success := true, error := none,
      sql := some (injectTeacherFilter (sanitizeSQL sql) teacherId) }

/-- Outcome of `ollamaService.generateSQL` as `handleChat` consumes it. -/
structure SqlGenResult where
  success : Bool
  sql : Option Str
  error : Option Str
  deriving DecidableEq

/-- A result row: column name to value. -/
abbrev QueryRow := List (Str × Str)

/-- Outcome of `queryService.executeDynamicQuery` as `handleChat` consumes
it: a success flag, rows on success, an error message on failure. -/
structure ExecResult where
  success : Bool
  results : List QueryRow
  error : Option Str
  deriving DecidableEq

/-- Outcome of `ollamaService.formatResponse` as `handleChat` consumes it. -/
structure FmtResult where
  success : Bool
  response : Str
  error : Option Str
  deriving DecidableEq

/-- The JSON body `res.json(...)` sends to the caller; a field the source
leaves out of an object literal is `none`. -/
structure JsonBody where
  success : Bool
  response : Option Str
  error : Option Str
  data : Option (List QueryRow)
  needsData : Option Bool
  deriving DecidableEq

/-- The `needsData` branch of `handleChat`
(backend/controllers/rickController.js lines 55–87): how the SQL-generation
and execution outcomes map to the JSON body returned to the caller.  Note
the execution-failure branch copies `queryResult.error` into the body's
`error` field. -/
def dataPathResponse (sqlResult : SqlGenResult) (queryResult : ExecResult)
    (formatted : FmtResult) : JsonBody :=
  if !sqlResult.success then
    { success := true,
      response := some (chars "I had trouble understanding that query. Could you rephrase it?"),
      error := none, data := none, needsData := some false }
  else if !queryResult.success then
    { success := true,
      response := some (chars "I couldn't execute that query. Let me try to help another way."),
      error := queryResult.error, data := none, needsData := none }
  else
    { success := true, response := some formatted.response, error := none,
      data := some queryResult.results, needsData := some true }

/-- `message.split(/\s+/)`, by fuel like the scanners above (fuel at least
the text's length never runs out): pieces between whitespace runs, with the
empty piece JavaScript yields before a leading run and after a trailing
one. -/
def splitWsAux : Nat → Str → Str → List Str
  | 0, _, acc => [acc.reverse]
  | _ + 1, [], acc => [acc.reverse]
  | fuel + 1, c :: r, acc =>
    if isWsChar c then acc.reverse :: splitWsAux fuel (r.dropWhile isWsChar) []
    else splitWsAux fuel r (c :: acc)

/-- `message.split(/\s+/)`. -/
def splitWs (s : Str) : List Str := splitWsAux s.length s []

/-- The regex `/^[A-Z][a-z]+$/` of `extractStudentNames`: one upper-case
letter, then one or more lower-case letters. -/
def isCapitalizedWord : Str → Bool
  | [] => false
  | c :: rest =>
    ('A' ≤ c && c ≤ 'Z') && !rest.isEmpty && rest.all (fun d => 'a' ≤ d && d ≤ 'z')

/-- `extractStudentNames` of backend/utils/contextBuilder.js: the
whitespace-separated words of length over 2 matching `/^[A-Z][a-z]+$/`. -/
def extractStudentNames (message : Str) : List Str :=
  (splitWs message).filter (fun w => decide (w.length > 2) && isCapitalizedWord w)

/-- A row of the `rick_memory` table.  `tags` is stored serialized
(`JSON.stringify` on write, `JSON.parse` on read); the round-trip is
modelled as the identity, so the field holds the tag list itself. -/
structure MemoryRow where
  id : Nat
  teacher_id : Nat
  student_id : Option Nat
  memory_content : Str
  tags : List Str
  created_at : Nat
  deriving DecidableEq

/-- A row of the `students` table, the fields the memory service touches. -/
structure StudentRow where
  id : Nat
  name : Str
  deriving DecidableEq

/-- The relational store the memory service queries, plus the
auto-increment counter behind `result.insertId`. -/
structure DB where
  memories : List MemoryRow
  students : List StudentRow
  nextId : Nat
  deriving DecidableEq

/-- The memory object the service maps each row to:
`{ id, content, studentName, tags, createdAt }`. -/
structure MemoryView where
  id : Nat
  content : Str
  studentName : Option Str
  tags : List Str
  createdAt : Nat
  deriving DecidableEq

/-- The `{ success, memories, error? }` object of the recall operations. -/
structure MemResult where
  success : Bool
  memories : List MemoryView
  error : Option Str
  deriving DecidableEq

/-- The `{ success, memoryId?, message?, error? }` object of `saveMemory`. -/
structure SaveResult where
  success : Bool
  memoryId : Option Nat
  message : Option Str
  error : Option Str
  deriving DecidableEq

/-- The `{ success, message?, error? }` object of `deleteMemory` and
`updateMemory`. -/
structure MutResult where
  success : Bool
  message : Option Str
  error : Option Str
  deriving DecidableEq

/-- The `LEFT JOIN students s ON m.student_id = s.id` of the recall
queries: the joined student's name, when there is one. -/
def studentNameOf (db : DB) (m : MemoryRow) : Option Str :=
  (db.students.find? (fun s => m.student_id == some s.id)).map (fun s => s.name)

/-- The row-to-object mapping `memories.map(m => ({...}))` of the recall
operations. -/
def toMemoryView (db : DB) (m : MemoryRow) : MemoryView :=
  { id := m.id, content := m.memory_content, studentName := studentNameOf db m,
    tags := m.tags, createdAt := m.created_at }

/-- MySQL `<text> LIKE '%<pat>%'` under the default case-insensitive
collation: `pat` occurs in `text` up to letter case. -/
def likeContains (text pat : Str) : Bool := containsSub Char.toLower pat text

/-- `ORDER BY m.created_at DESC`: larger timestamps first.  Sorting is
modelled by `List.insertionSort` under this relation. -/
def createdDesc (a b : MemoryRow) : Prop := b.created_at ≤ a.created_at

instance : DecidableRel createdDesc := fun a b => Nat.decLe b.created_at a.created_at

instance : IsTotal MemoryRow createdDesc := ⟨fun a b => Nat.le_total b.created_at a.created_at⟩

instance : IsTrans MemoryRow createdDesc :=
  ⟨fun _ _ _ h1 h2 => Nat.le_trans h2 h1⟩

/-- The rows the `getMemories` query text returns:
`WHERE m.teacher_id = ?` plus, when a student name is given,
`AND (s.name LIKE ? OR m.memory_content LIKE ?)`, then
`ORDER BY m.created_at DESC LIMIT ?`.  A `NULL` joined name makes the
`s.name LIKE ?` disjunct false. -/
def getMemoriesRows (db : DB) (teacherId : Nat) (studentName : Option Str)
    (limit : Nat) : List MemoryRow :=
  ((db.memories.filter (fun m =>
      m.teacher_id == teacherId &&
      match studentName with
      | some n =>
        (match studentNameOf db m with
         | some nm => likeContains nm n
         | none => false) || likeContains m.memory_content n
      | none => true)).insertionSort createdDesc).take limit

/-- `getMemories` of backend/services/memoryService.js.  The backing store
is an `Except`: `Except.error e` is a throwing `pool.execute`, which the
source's `catch` turns into `{ success: false, memories: [], error }`. -/
def getMemories (store : Except Str DB) (teacherId : Nat) (studentName : Option Str)
    (limit : Nat) : MemResult :=
  match store with
  | .error e => { success := false, memories := [], error := some e }
  | .ok db =>
    { success := true,
      memories := (getMemoriesRows db teacherId studentName limit).map (toMemoryView db),
      error := none }

/-- The rows the `getRelevantMemories` query text returns:
`WHERE m.teacher_id = ? AND (memory_content LIKE ? OR ...)` over the
extracted names, then `ORDER BY m.created_at DESC LIMIT ?`. -/
def getRelevantMemoriesRows (db : DB) (teacherId : Nat) (studentNames : List Str)
    (limit : Nat) : List MemoryRow :=
  ((db.memories.filter (fun m =>
      m.teacher_id == teacherId &&
      studentNames.any (fun n => likeContains m.memory_content n))).insertionSort
    createdDesc).take limit

/-- `getRelevantMemories` of backend/services/memoryService.js: extract
candidate student names from the message; with none, fall back to
`getMemories(teacherId, null, limit)`; else run the name-matching query. -/
def getRelevantMemories (store : Except Str DB) (teacherId : Nat) (message : Str)
    (limit : Nat) : MemResult :=
  match store with
  | .error e => { success := false, memories := [], error := some e }
  | .ok db =>
    if (extractStudentNames message).length = 0 then
      getMemories (.ok db) teacherId none limit
    else
      { success := true,
        memories := (getRelevantMemoriesRows db teacherId (extractStudentNames message)
          limit).map (toMemoryView db),
        error := none }

/-- `saveMemory` of backend/services/memoryService.js, result side: the
`INSERT` always succeeds when the store does, and reports `insertId`. -/
def saveMemory (store : Except Str DB) (teacherId : Nat) (memoryContent : Str)
    (studentId : Option Nat) : SaveResult :=
  match store with
  | .error e => { success := false, memoryId := none, message := none, error := some e }
  | .ok db =>
    { success := true, memoryId := some db.nextId,
      message := some (chars "Memory saved successfully"), error := none }

/-- `saveMemory`, store side: the inserted row, tagged with
`extractStudentNames(memoryContent)` and stamped `NOW()` (`now`). -/
def saveMemoryDb (db : DB) (teacherId : Nat) (memoryContent : Str)
    (studentId : Option Nat) (now : Nat) : DB :=
  { db with
    memories := db.memories ++
      [{ id := db.nextId, teacher_id := teacherId, student_id := studentId,
         memory_content := memoryContent, tags := extractStudentNames memoryContent,
         created_at := now }],
    nextId := db.nextId + 1 }

/-- `affectedRows` of `DELETE FROM rick_memory WHERE id = ? AND teacher_id = ?`
(also of the `UPDATE` with the same `WHERE`). -/
def affectedRows (db : DB) (teacherId memoryId : Nat) : Nat :=
  db.memories.countP (fun m => m.id == memoryId && m.teacher_id == teacherId)

/-- `deleteMemory`, store side: exactly the rows matching both the id and
the owning teacher are removed. -/
def deleteMemoryDb (db : DB) (teacherId memoryId : Nat) : DB :=
  { db with
    memories := db.memories.filter (fun m => !(m.id == memoryId && m.teacher_id == teacherId)) }

/-- `deleteMemory` of backend/services/memoryService.js, result side:
`affectedRows === 0` — whether the id does not exist or belongs to another
teacher — yields the one failure object. -/
def deleteMemory (store : Except Str DB) (teacherId memoryId : Nat) : MutResult :=
  match store with
  | .error e => { success := false, message := none, error := some e }
  | .ok db =>
    if affectedRows db teacherId memoryId = 0 then
      { success := false, message := none,
        error := some (chars "Memory not found or you do not have permission to delete it") }
    else
      { success := true, message := some (chars "Memory deleted successfully"), error := none }

/-- `updateMemory` of backend/services/memoryService.js, result side. -/
def updateMemory (store : Except Str DB) (teacherId memoryId : Nat)
    (newContent : Str) : MutResult :=
  match store with
  | .error e => { success := false, message := none, error := some e }
  | .ok db =>
    if affectedRows db teacherId memoryId = 0 then
      { success := false, message := none,
        error := some (chars "Memory not found or you do not have permission to update it") }
    else
      { success := true, message := some (chars "Memory updated successfully"), error := none }

/-- `updateMemory`, store side: content and tags replaced on the matching
row. -/
def updateMemoryDb (db : DB) (teacherId memoryId : Nat) (newContent : Str) : DB :=
  { db with
    memories := db.memories.map (fun m =>
      if m.id == memoryId && m.teacher_id == teacherId then
        { m with memory_content := newContent, tags := extractStudentNames newContent }
      else m) }

/-! Lemmas about the regex search primitives. -/

theorem parseKwAt_some_length {kw s tok post} (h : parseKwAt kw s = some (tok, post)) :
    post.length < s.length := by
  unfold parseKwAt at h
  split at h
  case isFalse => exact absurd h (by simp)
  split at h
  case isTrue => exact absurd h (by simp)
  split at h
  case isTrue => exact absurd h (by simp)
  case isFalse hws _ =>
    injection h with h1
    injection h1 with htok hpost
    have e1 := congrArg List.length
      (List.takeWhile_append_dropWhile isWsChar (s.drop kw.length))
    have e2 := congrArg List.length
      (List.takeWhile_append_dropWhile isWordChar ((s.drop kw.length).dropWhile isWsChar))
    rw [List.length_append] at e1 e2
    have hne : ((s.drop kw.length).takeWhile isWsChar).length ≠ 0 := by
      intro h0
      exact hws (by simpa [List.isEmpty_iff, List.length_eq_zero] using h0)
    have hd : (s.drop kw.length).length ≤ s.length := (List.drop_sublist _ _).length_le
    subst hpost
    omega

theorem matchesAt_length {norm : Char → Char} {pat s : Str}
    (h : matchesAt norm pat s = true) : pat.length ≤ s.length := by
  induction pat generalizing s with
  | nil => exact Nat.zero_le _
  | cons p ps ih =>
    cases s with
    | nil => exact absurd h (by simp [matchesAt])
    | cons c cs =>
      rw [matchesAt, Bool.and_eq_true] at h
      simpa [List.length_cons] using Nat.succ_le_succ (ih h.2)

theorem matchesAt_map_take {norm : Char → Char} {pat s : Str}
    (h : matchesAt norm pat s = true) :
    (s.take pat.length).map norm = pat.map norm := by
  induction pat generalizing s with
  | nil => simp
  | cons p ps ih =>
    cases s with
    | nil => exact absurd h (by simp [matchesAt])
    | cons c cs =>
      rw [matchesAt, Bool.and_eq_true] at h
      have hcp : norm c = norm p := beq_iff_eq.mp h.1
      simp [List.take_succ_cons, hcp, ih h.2]

theorem findSub_decomp {norm : Char → Char} {pat s pre m post : Str}
    (h : findSub norm pat s = some (pre, m, post)) :
    s = pre ++ m ++ post ∧ m.length = pat.length ∧ m.map norm = pat.map norm := by
  induction s generalizing pre with
  | nil =>
    rw [findSub] at h
    split at h
    · rename_i hm
      injection h with h1
      injection h1 with h2 h3
      injection h3 with h4 h5
      have : pat = [] := List.length_eq_zero.mp (Nat.le_zero.mp (matchesAt_length hm))
      subst h2; subst h4; subst h5; subst this
      exact ⟨rfl, rfl, rfl⟩
    · exact absurd h (by simp)
  | cons c r ih =>
    rw [findSub] at h
    split at h
    · rename_i hm
      injection h with h1
      injection h1 with h2 h3
      injection h3 with h4 h5
      subst h2; subst h4; subst h5
      refine ⟨by simp [List.take_append_drop], ?_, matchesAt_map_take hm⟩
      rw [List.length_take]
      exact Nat.min_eq_left (matchesAt_length hm)
    · rename_i hm
      rw [Option.map_eq_some'] at h
      obtain ⟨⟨pre', m', post'⟩, hfind, heq⟩ := h
      injection heq with h2 h3
      injection h3 with h4 h5
      subst h2; subst h4; subst h5
      obtain ⟨hdec, hlen, hmap⟩ := ih hfind
      exact ⟨by rw [List.cons_append, List.cons_append, ← hdec], hlen, hmap⟩

theorem findSub_leftmost {norm : Char → Char} {pat s pre m post : Str}
    (h : findSub norm pat s = some (pre, m, post)) :
    ∀ p q, s = p ++ q → matchesAt norm pat q = true → pre.length ≤ p.length := by
  induction s generalizing pre with
  | nil =>
    rw [findSub] at h
    split at h
    · injection h with h1
      injection h1 with h2 h3
      subst h2
      intro p q _ _
      exact Nat.zero_le _
    · exact absurd h (by simp)
  | cons c r ih =>
    rw [findSub] at h
    split at h
    · injection h with h1
      injection h1 with h2 h3
      subst h2
      intro p q _ _
      exact Nat.zero_le _
    · rename_i hm
      rw [Option.map_eq_some'] at h
      obtain ⟨⟨pre', m', post'⟩, hfind, heq⟩ := h
      injection heq with h2 h3
      injection h3 with h4 h5
      subst h2; subst h4; subst h5
      intro p q hpq hq
      cases p with
      | nil =>
        simp at hpq
        have : matchesAt norm pat (c :: r) = true := by rw [hpq]; exact hq
        exact absurd this hm
      | cons a p' =>
        rw [List.cons_append] at hpq
        injection hpq with hca hr
        simpa [List.length_cons] using Nat.succ_le_succ (ih hfind p' q hr hq)

theorem parseKwAt_decomp {kw s tok post : Str} (h : parseKwAt kw s = some (tok, post)) :
    ∃ f w, s = f ++ w ++ tok ++ post ∧ f.map Char.toLower = kw.map Char.toLower
      ∧ w ≠ [] ∧ w.all isWsChar = true ∧ tok ≠ [] ∧ tok.all isWordChar = true := by
  unfold parseKwAt at h
  split at h
  case isFalse => exact absurd h (by simp)
  case isTrue hm =>
    split at h
    case isTrue => exact absurd h (by simp)
    case isFalse hw =>
      split at h
      case isTrue => exact absurd h (by simp)
      case isFalse htok =>
        injection h with h1
        injection h1 with h2 h3
        refine ⟨s.take kw.length, (s.drop kw.length).takeWhile isWsChar, ?_, ?_, ?_, ?_, ?_, ?_⟩
        · rw [← h2, ← h3]
          rw [List.append_assoc, List.append_assoc]
          rw [List.takeWhile_append_dropWhile, List.takeWhile_append_dropWhile,
            List.take_append_drop]
        · exact matchesAt_map_take hm
        · intro h0
          exact hw (by simp [h0])
        · exact List.all_eq_true.mpr (fun x hx => List.mem_takeWhile_imp hx)
        · intro h0
          rw [← h2] at h0
          exact htok (by simp [h0])
        · rw [← h2]
          exact List.all_eq_true.mpr (fun x hx => List.mem_takeWhile_imp hx)

theorem findKwTable_decomp {kw s pre tok post : Str}
    (h : findKwTable kw s = some (pre, tok, post)) :
    ∃ f w, s = pre ++ f ++ w ++ tok ++ post ∧ f.map Char.toLower = kw.map Char.toLower
      ∧ w ≠ [] ∧ w.all isWsChar = true ∧ tok ≠ [] ∧ tok.all isWordChar = true := by
  induction s generalizing pre with
  | nil => exact absurd h (by simp [findKwTable])
  | cons c r ih =>
    rw [findKwTable] at h
    split at h
    · rename_i tok' post' hp
      injection h with h1
      injection h1 with h2 h3
      injection h3 with h4 h5
      subst h2; subst h4; subst h5
      obtain ⟨f, w, hdec, hf, hw, hwall, ht, htall⟩ := parseKwAt_decomp hp
      exact ⟨f, w, by simpa using hdec, hf, hw, hwall, ht, htall⟩
    · rw [Option.map_eq_some'] at h
      obtain ⟨⟨pre', tok', post'⟩, hfind, heq⟩ := h
      injection heq with h2 h3
      injection h3 with h4 h5
      subst h2; subst h4; subst h5
      obtain ⟨f, w, hdec, hf, hw, hwall, ht, htall⟩ := ih hfind
      refine ⟨f, w, ?_, hf, hw, hwall, ht, htall⟩
      subst hdec
      simp [List.cons_append]

/-! Lemmas about statement splitting, trimming and `sanitizeSQL`. -/

theorem splitSemi_ne_nil (s : Str) : splitSemi s ≠ [] := by
  cases s with
  | nil => simp [splitSemi]
  | cons c r =>
    rw [splitSemi]
    split
    · simp
    · split <;> simp

theorem trimStr_eq_nil_iff {s : Str} : trimStr s = [] ↔ ∀ c ∈ s, isWsChar c = true := by
  constructor
  · intro h c hc
    rw [trimStr, List.reverse_eq_nil_iff, List.dropWhile_eq_nil_iff] at h
    have hc2 : c ∈ s.takeWhile isWsChar ++ s.dropWhile isWsChar := by
      rw [List.takeWhile_append_dropWhile]
      exact hc
    rcases List.mem_append.mp hc2 with h1 | h2
    · exact List.mem_takeWhile_imp h1
    · exact h c (List.mem_reverse.mpr h2)
  · intro h
    rw [trimStr, List.reverse_eq_nil_iff, List.dropWhile_eq_nil_iff]
    intro x hx
    exact h x ((List.dropWhile_sublist isWsChar).subset (List.mem_reverse.mp hx))

theorem trim_isEmpty_iff (x : Str) :
    (trimStr x).isEmpty = true ↔ ∀ c ∈ x, isWsChar c = true := by
  rw [List.isEmpty_iff]
  exact trimStr_eq_nil_iff

theorem pNE_cons_ws {c : Char} (hc : isWsChar c = true) (x : Str) :
    (!(trimStr (c :: x)).isEmpty) = (!(trimStr x).isEmpty) := by
  have : (trimStr (c :: x)).isEmpty = (trimStr x).isEmpty := by
    rw [Bool.eq_iff_iff, trim_isEmpty_iff, trim_isEmpty_iff]
    constructor
    · intro h d hd
      exact h d (List.mem_cons_of_mem c hd)
    · intro h d hd
      rcases List.mem_cons.mp hd with rfl | hd2
      · exact hc
      · exact h d hd2
  rw [this]

theorem pNE_snoc_ws {c : Char} (hc : isWsChar c = true) (x : Str) :
    (!(trimStr (x ++ [c])).isEmpty) = (!(trimStr x).isEmpty) := by
  have : (trimStr (x ++ [c])).isEmpty = (trimStr x).isEmpty := by
    rw [Bool.eq_iff_iff, trim_isEmpty_iff, trim_isEmpty_iff]
    constructor
    · intro h d hd
      exact h d (List.mem_append.mpr (Or.inl hd))
    · intro h d hd
      rcases List.mem_append.mp hd with hd1 | hd2
      · exact h d hd1
      · rw [List.mem_singleton.mp hd2]
        exact hc
  rw [this]

theorem ws_ne_semi {c : Char} (hc : isWsChar c = true) : ¬ c = ';' := by
  intro h
  rw [h] at hc
  exact absurd hc (by decide)

theorem count_cons_ws {c : Char} (hc : isWsChar c = true) (r : Str) :
    (nonEmptyStatements (c :: r)).length = (nonEmptyStatements r).length := by
  rw [nonEmptyStatements, nonEmptyStatements, splitSemi, if_neg (ws_ne_semi hc)]
  cases hsr : splitSemi r with
  | nil => exact absurd hsr (splitSemi_ne_nil r)
  | cons h t =>
    show (List.filter _ ((c :: h) :: t)).length = (List.filter _ (h :: t)).length
    rw [List.filter_cons, List.filter_cons]
    simp only [pNE_cons_ws hc h]
    split <;> simp

theorem count_dropLeft (s : Str) :
    (nonEmptyStatements (s.dropWhile isWsChar)).length = (nonEmptyStatements s).length := by
  induction s with
  | nil => rfl
  | cons c r ih =>
    rw [List.dropWhile_cons]
    split
    · rename_i hc
      rw [ih, count_cons_ws hc]
    · rfl

theorem splitSemi_snoc {c : Char} (hc : ¬ c = ';') (s : Str) :
    splitSemi (s ++ [c]) = snocLast c (splitSemi s) := by
  induction s with
  | nil =>
    show splitSemi [c] = snocLast c [[]]
    rw [splitSemi, if_neg hc]
    rfl
  | cons a s ih =>
    show splitSemi (a :: (s ++ [c])) = snocLast c (splitSemi (a :: s))
    rw [splitSemi, splitSemi]
    by_cases ha : a = ';'
    · rw [if_pos ha, if_pos ha, ih]
      cases hss : splitSemi s with
      | nil => exact absurd hss (splitSemi_ne_nil s)
      | cons h t => rfl
    · rw [if_neg ha, if_neg ha, ih]
      cases hss : splitSemi s with
      | nil => exact absurd hss (splitSemi_ne_nil s)
      | cons h t =>
        cases t with
        | nil => rfl
        | cons t0 t1 => rfl

theorem count_snocLast {c : Char} (hc : isWsChar c = true) (ll : List Str) :
    ((snocLast c ll).filter (fun x => !(trimStr x).isEmpty)).length
      = (ll.filter (fun x => !(trimStr x).isEmpty)).length := by
  induction ll with
  | nil =>
    have h0 : (!(trimStr ([c])).isEmpty) = false := by
      rw [pNE_cons_ws hc]
      decide
    simp [snocLast, List.filter_cons, h0]
  | cons h t ih =>
    cases t with
    | nil =>
      show (List.filter _ [h ++ [c]]).length = (List.filter _ [h]).length
      rw [List.filter_cons, List.filter_cons]
      simp only [pNE_snoc_ws hc h]
      split <;> simp
    | cons t0 t1 =>
      show (List.filter _ (h :: snocLast c (t0 :: t1))).length
        = (List.filter _ (h :: t0 :: t1)).length
      rw [List.filter_cons, List.filter_cons]
      split <;> simp [ih]

theorem count_snoc_ws {c : Char} (hc : isWsChar c = true) (s : Str) :
    (nonEmptyStatements (s ++ [c])).length = (nonEmptyStatements s).length := by
  rw [nonEmptyStatements, nonEmptyStatements, splitSemi_snoc (ws_ne_semi hc)]
  exact count_snocLast hc _

theorem count_trimRight (w : Str) :
    (nonEmptyStatements ((w.dropWhile isWsChar).reverse)).length
      = (nonEmptyStatements w.reverse).length := by
  induction w with
  | nil => rfl
  | cons c v ih =>
    rw [List.dropWhile_cons]
    split
    · rename_i hc
      rw [ih, List.reverse_cons, count_snoc_ws hc]
    · rfl

theorem count_trim (s : Str) :
    (nonEmptyStatements (trimStr s)).length = (nonEmptyStatements s).length := by
  have h1 := count_trimRight ((s.dropWhile isWsChar).reverse)
  rw [List.reverse_reverse] at h1
  rw [trimStr]
  rw [h1]
  exact count_dropLeft s

theorem not_semi_mem_splitSemi {x s : Str} (hx : x ∈ splitSemi s) : ';' ∉ x := by
  induction s generalizing x with
  | nil =>
    rw [splitSemi] at hx
    rw [List.mem_singleton.mp hx]
    simp
  | cons c r ih =>
    rw [splitSemi] at hx
    split at hx
    · rcases List.mem_cons.mp hx with rfl | h2
      · simp
      · exact ih h2
    · rename_i hc
      split at hx
      · rename_i hsr
        exact absurd hsr (splitSemi_ne_nil r)
      · rename_i h t hsr
        rcases List.mem_cons.mp hx with rfl | h2
        · intro hmem
          rcases List.mem_cons.mp hmem with heq | hmem2
          · exact hc heq.symm
          · exact ih (by rw [hsr]; exact List.mem_cons_self h t) hmem2
        · exact ih (by rw [hsr]; exact List.mem_cons_of_mem h h2)

theorem splitSemi_of_not_mem {s : Str} (h : ';' ∉ s) : splitSemi s = [s] := by
  induction s with
  | nil => rfl
  | cons c r ih =>
    have hc : ¬ (c = ';') := fun he => h (by rw [he]; exact List.mem_cons_self _ _)
    rw [splitSemi, if_neg hc, ih (fun hm => h (List.mem_cons_of_mem c hm))]

theorem sanitizeSQL_single (sql : Str) :
    (nonEmptyStatements (sanitizeSQL sql)).length ≤ 1 := by
  rw [sanitizeSQL]
  split
  · rename_i hgt
    obtain ⟨a, rest, hst⟩ : ∃ a rest, nonEmptyStatements sql = a :: rest := by
      cases hs : nonEmptyStatements sql with
      | nil => rw [hs] at hgt; simp at hgt
      | cons a rest => exact ⟨a, rest, rfl⟩
    rw [hst]
    show (nonEmptyStatements a).length ≤ 1
    have ha : a ∈ nonEmptyStatements sql := by
      rw [hst]
      exact List.mem_cons_self a rest
    have hmem := List.mem_filter.mp ha
    have hnosemi : ';' ∉ a := not_semi_mem_splitSemi hmem.1
    rw [nonEmptyStatements, splitSemi_of_not_mem hnosemi, List.filter_cons]
    split <;> simp
  · rename_i hle
    rw [count_trim]
    omega

/-! Lemmas about `validateSQL` and `injectTeacherFilter`. -/

theorem validateSQL_valid_facts {sql : Str} {tid : Nat}
    (h : (validateSQL sql tid).valid = true) :
    startsWithStr (trimStr (upperStr sql)) (chars "SELECT") = true
    ∧ (∀ kw ∈ blockedKeywords, containsSub id kw (upperStr sql) = false)
    ∧ (∀ t ∈ extractTables (chars "from") sql, allowedTables.contains t = true)
    ∧ containsSub id (chars "teacher_id") (lowerStr sql) = true := by
  rw [validateSQL] at h
  split at h
  · exact absurd h (by simp)
  · rename_i h1
    split at h
    · exact absurd h (by simp)
    · rename_i hkw
      split at h
      · exact absurd h (by simp)
      · rename_i htb
        split at h
        · exact absurd h (by simp)
        · rename_i h4
          refine ⟨by simpa using h1, ?_, ?_, by simpa using h4⟩
          · intro kw hm
            simpa using List.find?_eq_none.mp hkw kw hm
          · intro t ht
            simpa using List.find?_eq_none.mp htb t ht

theorem inject_has_predicate {sql : Str} {tid : Nat}
    (h : (findSub Char.toLower (chars "where") sql).isSome = true
       ∨ (findKwTable (chars "from") sql).isSome = true) :
    ∃ pre post, injectTeacherFilter sql tid
      = pre ++ (chars "teacher_id = " ++ chars (Nat.repr tid)) ++ post := by
  rw [injectTeacherFilter]
  cases hw : findSub Char.toLower (chars "where") sql with
  | some x =>
    obtain ⟨pre, m, post⟩ := x
    refine ⟨pre ++ chars "WHERE ", chars " AND" ++ post, ?_⟩
    have hs : chars "WHERE teacher_id = " = chars "WHERE " ++ chars "teacher_id = " := rfl
    rw [hs]
    simp [List.append_assoc]
  | none =>
    cases hf : findKwTable (chars "from") sql with
    | some x =>
      obtain ⟨pre, tok, post⟩ := x
      refine ⟨pre ++ chars "FROM " ++ tok ++ chars " WHERE ", post, ?_⟩
      have hs : chars " WHERE teacher_id = " = chars " WHERE " ++ chars "teacher_id = " := rfl
      rw [hs]
      simp [List.append_assoc]
    | none =>
      rcases h with h | h
      · rw [hw] at h
        exact absurd h (by simp)
      · rw [hf] at h
        exact absurd h (by simp)

/-! Lemmas about the memory-service queries. -/

theorem mem_queryRows {db : DB} {p : MemoryRow → Bool} {lim : Nat} {r : MemoryRow}
    (h : r ∈ ((db.memories.filter p).insertionSort createdDesc).take lim) :
    r ∈ db.memories ∧ p r = true :=
  List.mem_filter.mp (((List.perm_insertionSort createdDesc _).mem_iff).mp
    ((List.take_sublist _ _).subset h))

theorem sorted_queryRows (l : List MemoryRow) (lim : Nat) :
    ((l.insertionSort createdDesc).take lim).Pairwise createdDesc :=
  List.Pairwise.sublist (List.take_sublist _ _) (List.sorted_insertionSort createdDesc l)

theorem sorted_memView {db : DB} {rows : List MemoryRow} (hs : rows.Pairwise createdDesc) :
    (rows.map (toMemoryView db)).Pairwise (fun a b => b.createdAt ≤ a.createdAt) := by
  rw [List.pairwise_map]
  exact hs.imp (fun hab => hab)

/-! The claims. -/

/-- C1: the claim says `validateAndPrepareSQL` (via `sanitizeSQL`) rejects
every multi-statement input as a hard failure rather than truncating it.
The code truncates: a two-statement input whose first statement passes
validation is accepted with success true, the `DROP TABLE grades` discarded
unseen; and on the spec's own scenario `sanitizeSQL` yields the first
statement, which is then rejected only for its missing `teacher_id`
filter, not as a multi-statement input. -/
theorem multiStatement_truncated_not_rejected :
    (validateAndPrepareSQL
        (chars "SELECT * FROM students WHERE teacher_id = 1; DROP TABLE grades;") 1).success
      = true
    ∧ (validateAndPrepareSQL
        (chars "SELECT * FROM students WHERE teacher_id = 1; DROP TABLE grades;") 1).sql
      = some (chars "SELECT * FROM students WHERE teacher_id = 1 AND teacher_id = 1")
    ∧ sanitizeSQL (chars "SELECT * FROM students; DROP TABLE grades;")
      = chars "SELECT * FROM students"
    ∧ (validateAndPrepareSQL (chars "SELECT * FROM students; DROP TABLE grades;") 1).error
      = some (chars "Query must filter by teacher_id") := by
  refine ⟨by decide, by decide, by decide, by decide⟩

/-- C2 (counterexample): a successful `validateAndPrepareSQL` result need
not contain the isolation predicate `teacher_id = <tenantId>`: on
`SELECT teacher_id FROM(SELECT 1)` validation succeeds (the substring
`teacher_id` is present) but the injector's `from\s+(\w+)` pattern finds no
match, so the statement is returned unchanged, with neither
`teacher_id = 42` nor `teacher_id=42` in it. -/
theorem validateAndPrepareSQL_no_predicate :
    (validateAndPrepareSQL (chars "SELECT teacher_id FROM(SELECT 1)") 42).success = true
    ∧ containsSub id (chars "teacher_id = 42")
        ((validateAndPrepareSQL (chars "SELECT teacher_id FROM(SELECT 1)") 42).sql.getD [])
      = false
    ∧ containsSub id (chars "teacher_id=42")
        ((validateAndPrepareSQL (chars "SELECT teacher_id FROM(SELECT 1)") 42).sql.getD [])
      = false := by
  refine ⟨by decide, by decide, by decide⟩

/-- C2 (amended): when `validateAndPrepareSQL` succeeds, the sanitized
statement starts with `SELECT` (after trimming, uppercased), contains no
blocked keyword, has every `FROM`-extracted table in the allowed set,
contains the substring `teacher_id`, and holds at most one non-empty
`;`-separated statement; and the returned statement contains the predicate
`teacher_id = <tenantId>` provided the sanitized statement contains `where`
(case-insensitively) or matches the injector's `from\s+(\w+)` pattern. -/
theorem validateAndPrepareSQL_success_facts (sql : Str) (tid : Nat)
    (h : (validateAndPrepareSQL sql tid).success = true) :
    startsWithStr (trimStr (upperStr (sanitizeSQL sql))) (chars "SELECT") = true
    ∧ (∀ kw ∈ blockedKeywords, containsSub id kw (upperStr (sanitizeSQL sql)) = false)
    ∧ (∀ t ∈ extractTables (chars "from") (sanitizeSQL sql), allowedTables.contains t = true)
    ∧ containsSub id (chars "teacher_id") (lowerStr (sanitizeSQL sql)) = true
    ∧ (nonEmptyStatements (sanitizeSQL sql)).length ≤ 1
    ∧ (((findSub Char.toLower (chars "where") (sanitizeSQL sql)).isSome = true
        ∨ (findKwTable (chars "from") (sanitizeSQL sql)).isSome = true) →
        ∃ pre post, (validateAndPrepareSQL sql tid).sql
          = some (pre ++ (chars "teacher_id = " ++ chars (Nat.repr tid)) ++ post)) := by
  have hv : (validateSQL (sanitizeSQL sql) tid).valid = true := by
    by_contra hne
    rw [validateAndPrepareSQL, if_pos (by simpa using hne)] at h
    exact absurd h (by simp)
  obtain ⟨f1, f2, f3, f4⟩ := validateSQL_valid_facts hv
  refine ⟨f1, f2, f3, f4, sanitizeSQL_single sql, ?_⟩
  intro hOr
  obtain ⟨pre, post, he⟩ := @inject_has_predicate (sanitizeSQL sql) tid hOr
  refine ⟨pre, post, ?_⟩
  rw [validateAndPrepareSQL, if_neg (by simp [hv])]
  show some (injectTeacherFilter (sanitizeSQL sql) tid) = _
  rw [he]

/-- C2 (witness): the amended invariant at a concrete accepted query. -/
theorem validateAndPrepareSQL_success_facts_witness :
    ∃ pre post,
      (validateAndPrepareSQL (chars "SELECT name FROM students WHERE teacher_id = 9") 9).sql
        = some (pre ++ (chars "teacher_id = " ++ chars (Nat.repr 9)) ++ post) :=
  (validateAndPrepareSQL_success_facts
    (chars "SELECT name FROM students WHERE teacher_id = 9") 9
    (by decide)).2.2.2.2.2 (Or.inl (by decide))

/-- C3 (counterexample): the claim says `validateSQL` checks every table
name following `FROM` or `JOIN`.  The code's pattern is `FROM\s+(\w+)`
only: on a query joining the non-allowed table `secret_stuff`, the
spec-worded extraction sees both tables, `secret_stuff` is not allowed,
yet `validateSQL` accepts the query. -/
theorem validateSQL_join_not_checked :
    specExtractTables
        (chars "SELECT * FROM students JOIN secret_stuff ON x = 1 WHERE teacher_id = 1")
      = [chars "students", chars "secret_stuff"]
    ∧ allowedTables.contains (chars "secret_stuff") = false
    ∧ validateSQL
        (chars "SELECT * FROM students JOIN secret_stuff ON x = 1 WHERE teacher_id = 1") 1
      = { valid := true, error := none } := by
  refine ⟨by decide, by decide, by decide⟩

/-- C3 (amended): `validateSQL` checks the tables following `FROM` only
(`JOIN` targets are not extracted); provided the statement begins with
`SELECT` and contains no blocked keyword, the first `FROM`-extracted name
outside the allowed set is rejected, with the error citing that name. -/
theorem validateSQL_from_table_reject (sql : Str) (tid : Nat) (t : Str)
    (h1 : startsWithStr (trimStr (upperStr sql)) (chars "SELECT") = true)
    (h2 : blockedKeywords.find? (fun kw => containsSub id kw (upperStr sql)) = none)
    (h3 : (extractTables (chars "from") sql).find?
        (fun t => !(allowedTables.contains t)) = some t) :
    validateSQL sql tid
      = { valid := false, error := some (chars "Table '" ++ t ++ chars "' is not allowed") }
    ∧ t ∈ extractTables (chars "from") sql ∧ allowedTables.contains t = false := by
  refine ⟨?_, List.mem_of_find?_eq_some h3, by simpa using List.find?_some h3⟩
  rw [validateSQL, h2, h3]
  simp [h1]

/-- C3 (witness): the amended rejection at a concrete query on a
non-allowed table. -/
theorem validateSQL_from_table_reject_witness :
    validateSQL (chars "SELECT * FROM hackers WHERE teacher_id = 1") 5
      = { valid := false,
          error := some (chars "Table '" ++ chars "hackers" ++ chars "' is not allowed") } :=
  (validateSQL_from_table_reject (chars "SELECT * FROM hackers WHERE teacher_id = 1") 5
    (chars "hackers") (by decide) (by decide) (by decide)).1

/-- C4 (counterexample): on an execution failure the JSON body returned to
the caller carries the raw internal failure reason in its `error` field,
next to the fixed user-safe `response`. -/
theorem dataPathResponse_leaks_error :
    (dataPathResponse
        { success := true, sql := some (chars "SELECT 1"), error := none }
        { success := false, results := [],
          error := some (chars "ER_NO_SUCH_TABLE: Table 'gradeinsight.students2' doesn't exist") }
        { success := true, response := [], error := none }).error
      = some (chars "ER_NO_SUCH_TABLE: Table 'gradeinsight.students2' doesn't exist") := by
  decide

/-- C4 (amended): the `response` field is always one of the fixed
user-safe messages — on SQL-generation failure the body holds only the
fixed message — but on execution failure the body's `error` field carries
`queryResult.error`, the raw internal failure reason, verbatim. -/
theorem dataPathResponse_policy :
    (∀ (sq : SqlGenResult) (qr : ExecResult) (fmt : FmtResult), sq.success = false →
        dataPathResponse sq qr fmt
          = { success := true,
              response := some (chars "I had trouble understanding that query. Could you rephrase it?"),
              error := none, data := none, needsData := some false })
    ∧ (∀ (sq : SqlGenResult) (qr : ExecResult) (fmt : FmtResult),
        sq.success = true → qr.success = false →
        (dataPathResponse sq qr fmt).response
            = some (chars "I couldn't execute that query. Let me try to help another way.")
        ∧ (dataPathResponse sq qr fmt).error = qr.error) := by
  constructor
  · intro sq qr fmt h
    simp [dataPathResponse, h]
  · intro sq qr fmt h1 h2
    constructor <;> simp [dataPathResponse, h1, h2]

/-- C5 (counterexample): the spec's scenario writes the result without
spaces around `=`; the code emits `teacher_id = 42` with spaces, so the
claimed output string is not the produced one. -/
theorem injectTeacherFilter_spacing :
    ¬ (injectTeacherFilter (chars "SELECT name FROM students") 42
        = chars "SELECT name FROM students WHERE teacher_id=42") := by
  decide

/-- C5 (amended): for a statement containing `where` (case-insensitively),
`injectTeacherFilter` replaces the leftmost such occurrence with
`WHERE teacher_id = <tid> AND`, so the bound is conjoined at the first
`where`; for a statement with no `where` that matches `from\s+(\w+)`, the
match is rewritten to `FROM <table> WHERE teacher_id = <tid>`; and
`SELECT name FROM students` for tenant 42 becomes
`SELECT name FROM students WHERE teacher_id = 42` (spaces around `=`). -/
theorem injectTeacherFilter_branches :
    (∀ (sql : Str) (tid : Nat) (pre m post : Str),
        findSub Char.toLower (chars "where") sql = some (pre, m, post) →
        sql = pre ++ m ++ post
        ∧ lowerStr m = chars "where"
        ∧ (∀ p q, sql = p ++ q → matchesAt Char.toLower (chars "where") q = true →
            pre.length ≤ p.length)
        ∧ injectTeacherFilter sql tid
            = pre ++ chars "WHERE teacher_id = " ++ chars (Nat.repr tid)
                ++ chars " AND" ++ post)
    ∧ (∀ (sql : Str) (tid : Nat) (pre tok post : Str),
        findSub Char.toLower (chars "where") sql = none →
        findKwTable (chars "from") sql = some (pre, tok, post) →
        (∃ f w, sql = pre ++ f ++ w ++ tok ++ post ∧ lowerStr f = chars "from"
          ∧ w ≠ [] ∧ w.all isWsChar = true ∧ tok ≠ [] ∧ tok.all isWordChar = true)
        ∧ injectTeacherFilter sql tid
            = pre ++ chars "FROM " ++ tok ++ chars " WHERE teacher_id = "
                ++ chars (Nat.repr tid) ++ post)
    ∧ injectTeacherFilter (chars "SELECT name FROM students") 42
        = chars "SELECT name FROM students WHERE teacher_id = 42" := by
  refine ⟨?_, ?_, by decide⟩
  · intro sql tid pre m post hf
    obtain ⟨hdec, hlen, hmap⟩ := findSub_decomp hf
    refine ⟨hdec, ?_, findSub_leftmost hf, ?_⟩
    · rw [lowerStr, hmap]
      rfl
    · rw [injectTeacherFilter, hf]
  · intro sql tid pre tok post hw hf
    constructor
    · obtain ⟨f, w, hdec, hfl, hw1, hw2, ht1, ht2⟩ := findKwTable_decomp hf
      refine ⟨f, w, hdec, ?_, hw1, hw2, ht1, ht2⟩
      rw [lowerStr, hfl]
      rfl
    · rw [injectTeacherFilter, hw, hf]

/-- C5 (witness): the where-branch of the amended statement at a concrete
query: the leftmost `WHERE` is replaced by the conjoined filter. -/
theorem injectTeacherFilter_branches_witness :
    injectTeacherFilter (chars "SELECT name FROM students WHERE x = 1") 7
      = chars "SELECT name FROM students " ++ chars "WHERE teacher_id = "
          ++ chars (Nat.repr 7) ++ chars " AND" ++ chars " x = 1" :=
  (injectTeacherFilter_branches.1 (chars "SELECT name FROM students WHERE x = 1") 7
    (chars "SELECT name FROM students ") (chars "WHERE") (chars " x = 1")
    (by decide)).2.2.2

/-- C6 (counterexample): `injectTeacherFilter` is not idempotent: applied a
second time to its own output for the same tenant it does not return that
output. -/
theorem injectTeacherFilter_not_idempotent :
    ¬ (injectTeacherFilter (injectTeacherFilter (chars "SELECT name FROM students") 42) 42
        = injectTeacherFilter (chars "SELECT name FROM students") 42) := by
  decide

/-- C6 (amended): a second application duplicates the isolation predicate —
it conjoins `teacher_id = 42 AND` again after the `WHERE` the first
application produced. -/
theorem injectTeacherFilter_duplicates :
    injectTeacherFilter (injectTeacherFilter (chars "SELECT name FROM students") 42) 42
      = chars "SELECT name FROM students WHERE teacher_id = 42 AND teacher_id = 42" := by
  decide

/-- C7: a blocked keyword occurring anywhere in the statement, in any
letter case (an occurrence of `kw` in the uppercased text), makes
`validateSQL` reject: either the leading-`SELECT` check or the blocked
keyword scan fails, and the result is invalid. -/
theorem validateSQL_blocked_rejects (sql : Str) (tid : Nat) (kw : Str)
    (hm : kw ∈ blockedKeywords) (hc : containsSub id kw (upperStr sql) = true) :
    (validateSQL sql tid).valid = false := by
  rw [validateSQL]
  split
  · rfl
  · split
    · rfl
    · rename_i hnone
      exact absurd hc (by simpa using List.find?_eq_none.mp hnone kw hm)

/-- C7 (witness): a lower-case `drop` smuggled into a SELECT is rejected. -/
theorem validateSQL_blocked_rejects_witness :
    (validateSQL (chars "SELECT * FROM students WHERE teacher_id = 1 OR drop") 1).valid
      = false :=
  validateSQL_blocked_rejects (chars "SELECT * FROM students WHERE teacher_id = 1 OR drop")
    1 (chars "DROP") (by decide) (by decide)

/-- C8: `deleteMemory` deletes only rows owned by the requesting tenant;
when every row with the requested id belongs to another tenant, the result
is identical — same shape, same message — to deleting an id that exists
nowhere, the store is unchanged, and in general a removed row always
matched both the id and the requesting tenant. -/
theorem deleteMemory_cross_tenant (db : DB) (tA tB mid midM : Nat)
    (hAB : tA ≠ tB)
    (hOwned : ∀ r ∈ db.memories, r.id = mid → r.teacher_id = tB)
    (hMissing : ∀ r ∈ db.memories, r.id ≠ midM) :
    deleteMemory (Except.ok db) tA mid = deleteMemory (Except.ok db) tA midM
    ∧ deleteMemory (Except.ok db) tA mid
        = { success := false, message := none,
            error := some (chars "Memory not found or you do not have permission to delete it") }
    ∧ deleteMemoryDb db tA mid = db
    ∧ (∀ (db2 : DB) (t i : Nat), ∀ r ∈ db2.memories,
        r ∉ (deleteMemoryDb db2 t i).memories → r.id = i ∧ r.teacher_id = t) := by
  have hz1 : affectedRows db tA mid = 0 := by
    rw [affectedRows, List.countP_eq_zero]
    intro r hr hp
    rw [Bool.and_eq_true, beq_iff_eq, beq_iff_eq] at hp
    exact hAB (hp.2.symm.trans (hOwned r hr hp.1))
  have hz2 : affectedRows db tA midM = 0 := by
    rw [affectedRows, List.countP_eq_zero]
    intro r hr hp
    rw [Bool.and_eq_true, beq_iff_eq, beq_iff_eq] at hp
    exact hMissing r hr hp.1
  refine ⟨?_, ?_, ?_, ?_⟩
  · simp [deleteMemory, hz1, hz2]
  · simp [deleteMemory, hz1]
  · rw [deleteMemoryDb]
    have hfix : db.memories.filter (fun m => !(m.id == mid && m.teacher_id == tA))
        = db.memories := by
      rw [List.filter_eq_self]
      intro r hr
      have hnr := List.countP_eq_zero.mp (by rw [affectedRows] at hz1; exact hz1) r hr
      rw [Bool.not_eq_true']
      exact Bool.eq_false_iff.mpr hnr
    rw [hfix]
  · intro db2 t i r hr hnot
    by_cases hp : (r.id == i && r.teacher_id == t) = true
    · rw [Bool.and_eq_true, beq_iff_eq, beq_iff_eq] at hp
      exact hp
    · exact absurd
        (List.mem_filter.mpr ⟨hr, by rw [Bool.not_eq_true']; exact Bool.eq_false_iff.mpr hp⟩)
        hnot

/-- C8 (witness): tenant 1 deleting tenant 2's memory 10 gets the same
failure object as deleting the nonexistent id 99. -/
theorem deleteMemory_cross_tenant_witness :
    deleteMemory (Except.ok
      { memories := [
          { id := 10, teacher_id := 2, student_id := none,
            memory_content := chars "Joe note", tags := [], created_at := 100 }],
        students := [], nextId := 11 }) 1 10
    = deleteMemory (Except.ok
      { memories := [
          { id := 10, teacher_id := 2, student_id := none,
            memory_content := chars "Joe note", tags := [], created_at := 100 }],
        students := [], nextId := 11 }) 1 99 :=
  (deleteMemory_cross_tenant
    { memories := [
        { id := 10, teacher_id := 2, student_id := none,
          memory_content := chars "Joe note", tags := [], created_at := 100 }],
      students := [], nextId := 11 } 1 2 10 99
    (by decide) (by decide) (by decide)).1

/-- C9: `getRelevantMemories` falls back to the tenant's recent memories
when no candidate name is extracted; every returned memory comes from a row
of the requesting tenant and, when names were extracted, matches one of
them in its content; results are most recent first; the extraction on
`Joe failed the quiz` is exactly `Joe`; and on a concrete store the
tenant-1 call returns the tenant-1 Joe memory and not the other tenant's
matching one. -/
theorem getRelevantMemories_spec :
    (∀ (db : DB) (tid : Nat) (msg : Str) (lim : Nat), extractStudentNames msg = [] →
        getRelevantMemories (Except.ok db) tid msg lim
          = getMemories (Except.ok db) tid none lim)
    ∧ (∀ (db : DB) (tid : Nat) (msg : Str) (lim : Nat) (mem : MemoryView),
        mem ∈ (getRelevantMemories (Except.ok db) tid msg lim).memories →
        ∃ r, r ∈ db.memories ∧ r.teacher_id = tid ∧ mem = toMemoryView db r ∧
          (extractStudentNames msg ≠ [] →
            ∃ n, n ∈ extractStudentNames msg ∧ likeContains r.memory_content n = true))
    ∧ (∀ (db : DB) (tid : Nat) (msg : Str) (lim : Nat),
        ((getRelevantMemories (Except.ok db) tid msg lim).memories).Pairwise
          (fun a b => b.createdAt ≤ a.createdAt))
    ∧ extractStudentNames (chars "Joe failed the quiz") = [chars "Joe"]
    ∧ getRelevantMemories (Except.ok
        { memories := [
            { id := 1, teacher_id := 1, student_id := none,
              memory_content := chars "Joe struggled in math", tags := [], created_at := 100 },
            { id := 2, teacher_id := 2, student_id := none,
              memory_content := chars "Joe aced the quiz", tags := [], created_at := 200 }],
          students := [], nextId := 3 }) 1 (chars "Joe failed the quiz") 5
      = { success := true,
          memories := [{ id := 1, content := chars "Joe struggled in math",
                         studentName := none, tags := [], createdAt := 100 }],
          error := none } := by
  refine ⟨?_, ?_, ?_, by decide, by decide⟩
  · intro db tid msg lim hz
    simp [getRelevantMemories, hz]
  · intro db tid msg lim mem hmem
    simp only [getRelevantMemories] at hmem
    split at hmem
    · rename_i hz
      simp only [getMemories] at hmem
      obtain ⟨r, hr, hmap⟩ := List.mem_map.mp hmem
      obtain ⟨hrmem, hp⟩ := mem_queryRows hr
      refine ⟨r, hrmem, by simpa using hp, hmap.symm, ?_⟩
      intro hne
      exact absurd (List.length_eq_zero.mp hz) hne
    · rename_i hz
      replace hmem : mem ∈ (getRelevantMemoriesRows db tid (extractStudentNames msg)
          lim).map (toMemoryView db) := hmem
      obtain ⟨r, hr, hmap⟩ := List.mem_map.mp hmem
      obtain ⟨hrmem, hp⟩ := mem_queryRows hr
      rw [Bool.and_eq_true] at hp
      refine ⟨r, hrmem, by simpa using hp.1, hmap.symm, ?_⟩
      intro _
      exact List.any_eq_true.mp hp.2
  · intro db tid msg lim
    simp only [getRelevantMemories]
    split
    · simp only [getMemories]
      exact sorted_memView (sorted_queryRows _ _)
    · exact sorted_memView (sorted_queryRows _ _)

/-- C10: each memory-service operation is total at its interface: on a
failing backing store it returns its failure object — success false, with
the recall operations additionally carrying an empty memories list — and
whenever a recall operation reports failure its memories list is empty;
exceptions never escape, every input yields a result object. -/
theorem memoryService_interface_total :
    (∀ (e : Str) (tid : Nat) (content : Str) (sid : Option Nat),
        saveMemory (Except.error e) tid content sid
          = { success := false, memoryId := none, message := none, error := some e })
    ∧ (∀ (e : Str) (tid : Nat) (n : Option Str) (lim : Nat),
        getMemories (Except.error e) tid n lim
          = { success := false, memories := [], error := some e })
    ∧ (∀ (e : Str) (tid : Nat) (msg : Str) (lim : Nat),
        getRelevantMemories (Except.error e) tid msg lim
          = { success := false, memories := [], error := some e })
    ∧ (∀ (e : Str) (tid mid : Nat),
        deleteMemory (Except.error e) tid mid
          = { success := false, message := none, error := some e })
    ∧ (∀ (e : Str) (tid mid : Nat) (c : Str),
        updateMemory (Except.error e) tid mid c
          = { success := false, message := none, error := some e })
    ∧ (∀ (store : Except Str DB) (tid : Nat) (n : Option Str) (lim : Nat),
        (getMemories store tid n lim).success = false →
        (getMemories store tid n lim).memories = [])
    ∧ (∀ (store : Except Str DB) (tid : Nat) (msg : Str) (lim : Nat),
        (getRelevantMemories store tid msg lim).success = false →
        (getRelevantMemories store tid msg lim).memories = []) := by
  refine ⟨fun _ _ _ _ => rfl, fun _ _ _ _ => rfl, fun _ _ _ _ => rfl,
    fun _ _ _ => rfl, fun _ _ _ _ => rfl, ?_, ?_⟩
  · intro store tid n lim h
    cases store with
    | error e => rfl
    | ok db => simp [getMemories] at h
  · intro store tid msg lim h
    cases store with
    | error e => rfl
    | ok db =>
      exfalso
      simp only [getRelevantMemories] at h
      split at h
      · simp [getMemories] at h
      · simp at h
